import Mathlib

/-!
Verification of the movies CRUD service (src/moviesService.ts) over a shallow
embedding. Stored documents are JavaScript objects, modelled as ordered
association lists of field name / value pairs with unique keys maintained by
field assignment. The external Firestore repository
(../repositories/firestoreRepository, not part of src/) is modelled from the
spec as an association list from document keys to document data; all calls in
the service use the single collection named by COLLECTION, so collection
scoping is elided and the state is that one collection.
-/

/-- Runtime values stored in document fields. -/
inductive Value where
  | vStr (s : String)
  | vNum (n : Int)
  | vDate (t : Nat)
  | vBool (b : Bool)
  | vNull
deriving DecidableEq, Repr

/-- A JavaScript object: an ordered list of field name / value pairs. -/
abbrev Obj := List (String × Value)

/-- Reading a field of an object. -/
def getField : Obj → String → Option Value
  | [], _ => none
  | (k, v) :: rest, f => if k = f then some v else getField rest f

/-- JavaScript property assignment: overwrite the field in place if present,
append it otherwise. -/
def setField : Obj → String → Value → Obj
  | [], f, v => [(f, v)]
  | (k, w) :: rest, f, v =>
      if k = f then (f, v) :: rest else (k, w) :: setField rest f v

/-- Object spread: fields of src assigned onto base, left to right, as in a
JavaScript object literal that lists base's fields first and then spreads
src. Later assignments overwrite earlier fields of the same name. -/
def objSpread (base src : Obj) : Obj :=
  src.foldl (fun acc kv => setField acc kv.1 kv.2) base

/-- The data of a document snapshot: possibly undefined. -/
abbrev DocData := Option Obj

/-- Modelled from the spec: the state of the movies collection held by the
external DocumentRepository collaborator — a list of documents, each a
store-assigned key paired with its data. An entry whose data is none models a
snapshot whose data extraction yields undefined. -/
abbrev Store := List (String × DocData)

/-- The collection name constant of the service. -/
def COLLECTION : String := "movies"

/-- Modelled from the spec: list-documents primitive of the repository. -/
def getDocuments (s : Store) : List (String × DocData) := s

/-- Modelled from the spec: get-document-by-id primitive — document-or-null. -/
def getDocumentById (s : Store) (i : String) : Option (String × DocData) :=
  s.find? (fun e => e.1 == i)

/-- Modelled from the spec: create-document primitive; the store assigns the
key, which the model receives as the newId argument. -/
def createDocument (s : Store) (newId : String) (d : Obj) : Store :=
  s ++ [(newId, some d)]

/-- Modelled from the spec: update-document primitive — full-document write
under the given key. -/
def updateDocument (s : Store) (i : String) (d : Obj) : Store :=
  if s.any (fun e => e.1 == i) then
    s.map (fun e => if e.1 == i then (i, some d) else e)
  else s ++ [(i, some d)]

/-- Modelled from the spec: delete-document primitive. -/
def deleteDocument (s : Store) (i : String) : Store :=
  s.filter (fun e => e.1 != i)

/-- The store calls a service operation issues, recorded as a trace. -/
inductive StoreOp where
  | opList
  | opGet (i : String)
  | opCreate (i : String) (d : Obj)
  | opUpdate (i : String) (d : Obj)
  | opDelete (i : String)
deriving DecidableEq, Repr

/-- Whether a store call writes (creates, updates or deletes). -/
def isWrite : StoreOp → Bool
  | .opList => false
  | .opGet _ => false
  | _ => true

/-- The NotFound message interpolated by the service. -/
def notFoundMsg (i : String) : String :=
  "Movie with ID " ++ i ++ " not found"

/-- structuredClone: a deep copy. On pure values it is the identity;
aliasing is not observable in this embedding. -/
def structuredClone (o : Obj) : Obj := o

/-- getAllMovies: maps every document to an object with field id set to the
document key and the document data spread after it. -/
def getAllMovies (s : Store) : Except String (List Obj) × Store × List StoreOp :=
  (.ok ((getDocuments s).map (fun doc =>
      objSpread [("id", Value.vStr doc.1)] (doc.2.getD []))),
   s, [StoreOp.opList])

/-- getMovieById: fetches the document; throws NotFound if the snapshot is
null; otherwise builds the movie from the key and the (possibly undefined)
data, spread after the id field, and returns a structuredClone of it. -/
def getMovieById (s : Store) (i : String) :
    Except String Obj × Store × List StoreOp :=
  match getDocumentById s i with
  | none => (.error (notFoundMsg i), s, [StoreOp.opGet i])
  | some doc =>
      let movie := objSpread [("id", Value.vStr doc.1)] (doc.2.getD [])
      (.ok (structuredClone movie), s, [StoreOp.opGet i])

/-- The input accepted by createMovie: title, description, genre, and an
optional rating. -/
structure CreateInput where
  title : String
  description : String
  genre : String
  rating : Option Int
deriving DecidableEq, Repr

/-- The object literal a CreateInput denotes: its fields in declaration
order, rating present only when supplied. -/
def createInputObj (m : CreateInput) : Obj :=
  [("title", Value.vStr m.title), ("description", Value.vStr m.description),
   ("genre", Value.vStr m.genre)] ++
  (match m.rating with
   | some r => [("rating", Value.vNum r)]
   | none => [])

/-- createMovie: stamps the input with createdAt set to the current time,
persists the stamped object letting the store assign a key, and returns a
structuredClone of the object with the assigned key as id followed by the
spread of the stamped object. The assigned key and the current time are
received as arguments. -/
def createMovie (s : Store) (movieData : CreateInput) (assignedId : String)
    (now : Nat) : Except String Obj × Store × List StoreOp :=
  let newMovie :=
    setField (objSpread [] (createInputObj movieData)) "createdAt"
      (Value.vDate now)
  (.ok (structuredClone (objSpread [("id", Value.vStr assignedId)] newMovie)),
   createDocument s assignedId newMovie,
   [StoreOp.opCreate assignedId newMovie])

/-- The partial update accepted by updateMovie: each of title, description,
genre present or undefined. -/
structure UpdateInput where
  title : Option String
  description : Option String
  genre : Option String
deriving DecidableEq, Repr

/-- Truthiness of the movie object bound in updateMovie and deleteMovie: in
JavaScript every object is truthy, and getMovieById only ever returns object
literals, so this is constantly true. -/
def movieTruthy (_ : Obj) : Bool := true

/-- The in-place merge of updateMovie: each field of movieData that is not
undefined is assigned onto the fetched movie, in source order. -/
def applyUpdate (movie : Obj) (movieData : UpdateInput) : Obj :=
  let u1 := match movieData.title with
    | some t => setField movie "title" (Value.vStr t)
    | none => movie
  let u2 := match movieData.description with
    | some d => setField u1 "description" (Value.vStr d)
    | none => u1
  match movieData.genre with
    | some g => setField u2 "genre" (Value.vStr g)
    | none => u2

/-- updateMovie: fetches the movie (propagating NotFound), re-checks its
truthiness, merges the present fields in place, writes the full merged
object back under the same id and returns a structuredClone of it. -/
def updateMovie (s : Store) (i : String) (movieData : UpdateInput) :
    Except String Obj × Store × List StoreOp :=
  match getMovieById s i with
  | (.error e, s1, tr) => (.error e, s1, tr)
  | (.ok movie, s1, tr) =>
      if movieTruthy movie = false then
        (.error (notFoundMsg i), s1, tr)
      else
        let u := applyUpdate movie movieData
        (.ok (structuredClone u), updateDocument s1 i u,
         tr ++ [StoreOp.opUpdate i u])

/-- updateMovie with the dead re-check branch removed, to compare with
updateMovie for the unreachability claim. -/
def updateMovieNoRecheck (s : Store) (i : String) (movieData : UpdateInput) :
    Except String Obj × Store × List StoreOp :=
  match getMovieById s i with
  | (.error e, s1, tr) => (.error e, s1, tr)
  | (.ok movie, s1, tr) =>
      let u := applyUpdate movie movieData
      (.ok (structuredClone u), updateDocument s1 i u,
       tr ++ [StoreOp.opUpdate i u])

/-- deleteMovie: fetches the movie (propagating NotFound), re-checks its
truthiness, then issues the delete against the store. -/
def deleteMovie (s : Store) (i : String) :
    Except String Unit × Store × List StoreOp :=
  match getMovieById s i with
  | (.error e, s1, tr) => (.error e, s1, tr)
  | (.ok movie, s1, tr) =>
      if movieTruthy movie = false then
        (.error (notFoundMsg i), s1, tr)
      else
        (.ok (), deleteDocument s1 i, tr ++ [StoreOp.opDelete i])

/-- deleteMovie with the dead re-check branch removed, to compare with
deleteMovie for the unreachability claim. -/
def deleteMovieNoRecheck (s : Store) (i : String) :
    Except String Unit × Store × List StoreOp :=
  match getMovieById s i with
  | (.error e, s1, tr) => (.error e, s1, tr)
  | (.ok _, s1, tr) =>
      (.ok (), deleteDocument s1 i, tr ++ [StoreOp.opDelete i])

/-! ### Lemmas on objects and the store -/

theorem getField_setField_self (o : Obj) (f : String) (v : Value) :
    getField (setField o f v) f = some v := by
  induction o with
  | nil => simp [setField, getField]
  | cons kv rest ih =>
      obtain ⟨k, w⟩ := kv
      by_cases h : k = f
      · simp [setField, getField, h]
      · simp [setField, getField, h, ih]

theorem getField_setField_ne (o : Obj) (f g : String) (v : Value)
    (h : g ≠ f) : getField (setField o f v) g = getField o g := by
  induction o with
  | nil => simp [setField, getField, Ne.symm h]
  | cons kv rest ih =>
      obtain ⟨k, w⟩ := kv
      by_cases hk : k = f
      · subst hk
        simp [setField, getField, Ne.symm h]
      · simp [setField, getField, hk, ih]

theorem getField_eq_none_iff (o : Obj) (g : String) :
    getField o g = none ↔ ∀ kv ∈ o, kv.1 ≠ g := by
  induction o with
  | nil => simp [getField]
  | cons kv rest ih =>
      obtain ⟨k, w⟩ := kv
      by_cases h : k = g
      · simp [getField, h]
      · simp [getField, h, ih]

theorem getField_objSpread_of_none (base src : Obj) (g : String)
    (h : getField src g = none) :
    getField (objSpread base src) g = getField base g := by
  induction src generalizing base with
  | nil => simp [objSpread]
  | cons kv rest ih =>
      obtain ⟨k, w⟩ := kv
      have hk : ¬ k = g := by
        intro hkg
        simp [getField, hkg] at h
      have hrest : getField rest g = none := by
        simpa [getField, hk] using h
      have step : objSpread base ((k, w) :: rest) =
          objSpread (setField base k w) rest := by
        simp [objSpread]
      rw [step, ih _ hrest, getField_setField_ne]
      exact fun hgk => hk hgk.symm

/-- Reading a field after a spread of an object with duplicate-free keys:
the source wins where it has the field, the base shows through elsewhere. -/
theorem getField_objSpread (base src : Obj) (g : String)
    (hnd : (src.map Prod.fst).Nodup) :
    getField (objSpread base src) g =
      ((getField src g).elim (getField base g) some) := by
  induction src generalizing base with
  | nil => simp [objSpread, getField]
  | cons kv rest ih =>
      obtain ⟨k, w⟩ := kv
      have step : objSpread base ((k, w) :: rest) =
          objSpread (setField base k w) rest := by
        simp [objSpread]
      have hnd' : (rest.map Prod.fst).Nodup := (List.nodup_cons.mp hnd).2
      have hknotin : k ∉ rest.map Prod.fst := (List.nodup_cons.mp hnd).1
      by_cases h : k = g
      · subst h
        have hnone : getField rest k = none := by
          rw [getField_eq_none_iff]
          intro kv hkv hk1
          exact hknotin (hk1 ▸ List.mem_map_of_mem Prod.fst hkv)
        rw [step, getField_objSpread_of_none _ _ _ hnone,
          getField_setField_self]
        simp [getField]
      · rw [step, ih _ hnd']
        simp [getField, h, getField_setField_ne base k g w fun hg => h hg.symm]

theorem getDocumentById_key (s : Store) (i k : String) (dd : DocData)
    (h : getDocumentById s i = some (k, dd)) : k = i := by
  have hp := List.find?_some h
  simpa using hp

theorem getDocumentById_updateDocument_self (s : Store) (i : String)
    (d : Obj) (e : String × DocData) (h : getDocumentById s i = some e) :
    getDocumentById (updateDocument s i d) i = some (i, some d) := by
  induction s with
  | nil => simp [getDocumentById] at h
  | cons hd rest ih =>
      by_cases hk : hd.1 = i
      · have hany : List.any (hd :: rest) (fun e => e.1 == i) = true := by
          simp [hk]
        simp [updateDocument, hany, getDocumentById, hk]
      · have hrest : getDocumentById rest i = some e := by
          rw [getDocumentById] at h ⊢
          rwa [List.find?_cons_of_neg _ (by simp [hk])] at h
        have hany' : rest.any (fun e => e.1 == i) = true := by
          have := List.find?_some hrest
          exact List.any_eq_true.mpr ⟨e, List.mem_of_find?_eq_some hrest, this⟩
        have hany : List.any (hd :: rest) (fun e => e.1 == i) = true := by
          simp [hany']
        have hres := ih hrest
        simpa [updateDocument, hany, hany', getDocumentById, hk] using hres

theorem getDocumentById_deleteDocument_self (s : Store) (i : String) :
    getDocumentById (deleteDocument s i) i = none := by
  rw [getDocumentById, List.find?_eq_none]
  intro x hx
  have := List.of_mem_filter hx
  simp_all

theorem getMovieById_shape (s : Store) (i : String) :
    getMovieById s i = ((getMovieById s i).1, s, [StoreOp.opGet i]) := by
  cases h : getDocumentById s i <;> simp [getMovieById, h]

theorem getMovieById_ok (s : Store) (i k : String) (dd : DocData)
    (h : getDocumentById s i = some (k, dd)) :
    (getMovieById s i).1 =
      Except.ok (objSpread [("id", Value.vStr k)] (dd.getD [])) := by
  simp [getMovieById, h, structuredClone]

theorem getMovieById_absent (s : Store) (i : String)
    (h : getDocumentById s i = none) :
    (getMovieById s i).1 = Except.error (notFoundMsg i) := by
  simp [getMovieById, h]

theorem getMovieById_eq_of_fst_ok (s : Store) (i : String) (mb : Obj)
    (hok : (getMovieById s i).1 = Except.ok mb) :
    getMovieById s i = (Except.ok mb, s, [StoreOp.opGet i]) := by
  rw [getMovieById_shape s i, hok]

theorem getField_applyUpdate_title (movie : Obj) (md : UpdateInput) :
    getField (applyUpdate movie md) "title" =
      (md.title.map Value.vStr).elim (getField movie "title") some := by
  unfold applyUpdate
  cases md.title <;> cases md.description <;> cases md.genre <;>
    simp [getField_setField_self, getField_setField_ne]

theorem getField_applyUpdate_description (movie : Obj) (md : UpdateInput) :
    getField (applyUpdate movie md) "description" =
      (md.description.map Value.vStr).elim
        (getField movie "description") some := by
  unfold applyUpdate
  cases md.title <;> cases md.description <;> cases md.genre <;>
    simp [getField_setField_self, getField_setField_ne]

theorem getField_applyUpdate_genre (movie : Obj) (md : UpdateInput) :
    getField (applyUpdate movie md) "genre" =
      (md.genre.map Value.vStr).elim (getField movie "genre") some := by
  unfold applyUpdate
  cases md.title <;> cases md.description <;> cases md.genre <;>
    simp [getField_setField_self, getField_setField_ne]

theorem getField_applyUpdate_frame (movie : Obj) (md : UpdateInput)
    (f : String) (hf1 : f ≠ "title") (hf2 : f ≠ "description")
    (hf3 : f ≠ "genre") :
    getField (applyUpdate movie md) f = getField movie f := by
  unfold applyUpdate
  cases md.title <;> cases md.description <;> cases md.genre <;>
    simp [getField_setField_ne _ _ _ _ hf1, getField_setField_ne _ _ _ _ hf2,
      getField_setField_ne _ _ _ _ hf3]

/-! ### Claim theorems -/

/-- C2: getById on an id with no document fails with NotFound whose message
contains that id; on an id whose document exists it returns a Movie and does
not raise NotFound. -/
theorem getMovieById_notFound_semantics (s : Store) (i : String) :
    (getDocumentById s i = none →
      (getMovieById s i).1 = Except.error (notFoundMsg i) ∧
      ∃ pre suf, notFoundMsg i = pre ++ i ++ suf) ∧
    (∀ e, getDocumentById s i = some e →
      ∃ m, (getMovieById s i).1 = Except.ok m) := by
  constructor
  · intro h
    exact ⟨getMovieById_absent s i h, "Movie with ID ", " not found", rfl⟩
  · rintro ⟨k, dd⟩ h
    exact ⟨_, getMovieById_ok s i k dd h⟩

theorem getMovieById_notFound_semantics_witness :
    ((getMovieById ([] : Store) "b").1 = Except.error (notFoundMsg "b") ∧
      ∃ pre suf, notFoundMsg "b" = pre ++ "b" ++ suf) ∧
    ∃ m, (getMovieById [("a", some [("title", Value.vStr "T")])] "a").1 =
      Except.ok m :=
  ⟨(getMovieById_notFound_semantics [] "b").1 rfl,
   (getMovieById_notFound_semantics
      [("a", some [("title", Value.vStr "T")])] "a").2
     ("a", some [("title", Value.vStr "T")]) rfl⟩

/-- C5: update on a non-existent id fails with NotFound, leaves the store
unchanged and issues no write call. -/
theorem updateMovie_absent_no_write (s : Store) (i : String)
    (md : UpdateInput) (h : getDocumentById s i = none) :
    (updateMovie s i md).1 = Except.error (notFoundMsg i) ∧
    (updateMovie s i md).2.1 = s ∧
    ∀ op ∈ (updateMovie s i md).2.2, isWrite op = false := by
  have hu : updateMovie s i md =
      (Except.error (notFoundMsg i), s, [StoreOp.opGet i]) := by
    simp [updateMovie, getMovieById, h]
  simp [hu, isWrite]

theorem updateMovie_absent_no_write_witness :
    (updateMovie ([] : Store) "b" ⟨none, none, none⟩).1 =
      Except.error (notFoundMsg "b") ∧
    (updateMovie ([] : Store) "b" ⟨none, none, none⟩).2.1 = [] ∧
    ∀ op ∈ (updateMovie ([] : Store) "b" ⟨none, none, none⟩).2.2,
      isWrite op = false :=
  updateMovie_absent_no_write [] "b" ⟨none, none, none⟩ rfl

/-- C9: the defensive re-check after the internal getById in updateMovie and
deleteMovie is dead code: the service behaves identically with the branch
removed, and every movie getMovieById resolves with is a truthy object. -/
theorem recheck_branch_unreachable :
    (∀ s i md, updateMovie s i md = updateMovieNoRecheck s i md) ∧
    (∀ s i, deleteMovie s i = deleteMovieNoRecheck s i) ∧
    (∀ s i m, (getMovieById s i).1 = Except.ok m →
      movieTruthy m = true) := by
  refine ⟨?_, ?_, fun _ _ _ _ => rfl⟩
  · intro s i md
    unfold updateMovie updateMovieNoRecheck
    rcases getMovieById s i with ⟨r, s1, tr⟩
    cases r <;> simp [movieTruthy]
  · intro s i
    unfold deleteMovie deleteMovieNoRecheck
    rcases getMovieById s i with ⟨r, s1, tr⟩
    cases r <;> simp [movieTruthy]

theorem recheck_branch_unreachable_witness :
    movieTruthy [("id", Value.vStr "a")] = true :=
  recheck_branch_unreachable.2.2 [("a", some [])] "a"
    [("id", Value.vStr "a")] rfl

/-- C10: NotFound is decided by snapshot existence alone: a document that
exists but whose data extraction yields undefined is returned as a Movie
holding only the id field, not a NotFound failure. -/
theorem getMovieById_undefined_data_only_id (s : Store) (i k : String)
    (h : getDocumentById s i = some (k, none)) :
    (getMovieById s i).1 = Except.ok [("id", Value.vStr k)] ∧
    (getMovieById s i).1 ≠ Except.error (notFoundMsg i) := by
  have hok : (getMovieById s i).1 = Except.ok [("id", Value.vStr k)] :=
    getMovieById_ok s i k none h
  exact ⟨hok, by simp [hok]⟩

theorem getMovieById_undefined_data_only_id_witness :
    (getMovieById [("e", (none : DocData))] "e").1 =
      Except.ok [("id", Value.vStr "e")] ∧
    (getMovieById [("e", (none : DocData))] "e").1 ≠
      Except.error (notFoundMsg "e") :=
  getMovieById_undefined_data_only_id [("e", none)] "e" "e" rfl

/-- C1 counterexample: when the stored data itself contains an id field, the
spread places it after the key, so the retrieved Movie's id is the stored
value, not the document key. -/
theorem getMovieById_storedIdField_cex :
    ∃ m, (getMovieById [("k", some [("id", Value.vStr "other")])] "k").1 =
        Except.ok m ∧ getField m "id" ≠ some (Value.vStr "k") :=
  ⟨[("id", Value.vStr "other")], rfl, by decide⟩

/-- C1 amended: provided no stored document's data contains an id field (and
keys are non-empty), listAll returns exactly one Movie per document whose id
is that document's non-empty key, and every Movie getById returns has id
equal to the requested key; when stored data does contain an id field, that
stored value overwrites the document key in the result. -/
theorem retrieved_id_eq_key_of_no_storedIdField (s : Store) (i : String)
    (hid : ∀ e ∈ s, getField (e.2.getD []) "id" = none)
    (hkeys : ∀ e ∈ s, e.1 ≠ "") :
    (∃ ms, (getAllMovies s).1 = Except.ok ms ∧ ms.length = s.length ∧
      ∀ (j : Nat) (m : Obj), ms[j]? = some m →
        ∃ e : String × DocData, s[j]? = some e ∧
        getField m "id" = some (Value.vStr e.1) ∧ e.1 ≠ "") ∧
    (∀ m, (getMovieById s i).1 = Except.ok m →
      getField m "id" = some (Value.vStr i) ∧ i ≠ "") := by
  constructor
  · refine ⟨_, rfl, by simp [getAllMovies, getDocuments], ?_⟩
    intro j m hm
    simp only [getAllMovies, getDocuments, List.getElem?_map] at hm
    cases he : s[j]? with
    | none => rw [he] at hm; simp at hm
    | some e =>
        rw [he] at hm
        simp only [Option.map_some'] at hm
        have hmem : e ∈ s := List.getElem?_mem he
        have hidfield :
            getField (objSpread [("id", Value.vStr e.1)] (e.2.getD []))
              "id" = some (Value.vStr e.1) := by
          rw [getField_objSpread_of_none _ _ _ (hid e hmem)]
          simp [getField]
        refine ⟨e, rfl, ?_, hkeys e hmem⟩
        rw [← Option.some_inj.mp hm]
        exact hidfield
  · intro m hok
    cases h : getDocumentById s i with
    | none =>
        rw [getMovieById_absent s i h] at hok
        simp at hok
    | some e =>
        obtain ⟨k, dd⟩ := e
        have hk : k = i := getDocumentById_key s i k dd h
        have hmem : (k, dd) ∈ s := List.mem_of_find?_eq_some h
        have := getMovieById_ok s i k dd h
        rw [this] at hok
        have hm : m = objSpread [("id", Value.vStr k)] (dd.getD []) :=
          (Except.ok.inj hok).symm
        have hidfield : getField m "id" = some (Value.vStr k) := by
          rw [hm, getField_objSpread_of_none _ _ _ (hid (k, dd) hmem)]
          simp [getField]
        subst hk
        exact ⟨hidfield, hkeys (k, dd) hmem⟩

theorem retrieved_id_eq_key_of_no_storedIdField_witness :
    (∃ ms, (getAllMovies [("a", some [("title", Value.vStr "T")])]).1 =
        Except.ok ms ∧
      ms.length = [("a", some [("title", Value.vStr "T")])].length ∧
      ∀ (j : Nat) (m : Obj), ms[j]? = some m →
        ∃ e : String × DocData,
          [("a", some [("title", Value.vStr "T")])][j]? = some e ∧
          getField m "id" = some (Value.vStr e.1) ∧ e.1 ≠ "") ∧
    (∀ m, (getMovieById [("a", some [("title", Value.vStr "T")])] "a").1 =
        Except.ok m →
      getField m "id" = some (Value.vStr "a") ∧ "a" ≠ "") :=
  retrieved_id_eq_key_of_no_storedIdField
    [("a", some [("title", Value.vStr "T")])] "a"
    (by decide) (by decide)

/-- C3: create persists a new document holding exactly the input fields plus
a service-stamped createdAt, and returns the store-assigned key as id
together with exactly those stamped fields. -/
theorem createMovie_stamps_and_returns (s : Store) (inp : CreateInput)
    (assignedId : String) (now : Nat) :
    ∃ m stamped,
      createMovie s inp assignedId now =
        (Except.ok m, s ++ [(assignedId, some stamped)],
         [StoreOp.opCreate assignedId stamped]) ∧
      getField stamped "title" = some (Value.vStr inp.title) ∧
      getField stamped "description" = some (Value.vStr inp.description) ∧
      getField stamped "genre" = some (Value.vStr inp.genre) ∧
      getField stamped "rating" = inp.rating.map Value.vNum ∧
      getField stamped "createdAt" = some (Value.vDate now) ∧
      Value.vDate now ≠ Value.vNull ∧
      (∀ f, f ∉ ["title", "description", "genre", "rating", "createdAt"] →
        getField stamped f = none) ∧
      getField m "id" = some (Value.vStr assignedId) ∧
      ∀ f, f ≠ "id" → getField m f = getField stamped f := by
  obtain ⟨t, d, g, r⟩ := inp
  cases r with
  | none =>
      refine ⟨("id", Value.vStr assignedId) ::
          [("title", Value.vStr t), ("description", Value.vStr d),
           ("genre", Value.vStr g), ("createdAt", Value.vDate now)],
        [("title", Value.vStr t), ("description", Value.vStr d),
         ("genre", Value.vStr g), ("createdAt", Value.vDate now)],
        rfl, rfl, rfl, rfl, rfl, rfl, by simp, ?_, rfl, ?_⟩
      · intro f hf
        simp only [List.mem_cons, List.not_mem_nil, or_false] at hf
        push_neg at hf
        obtain ⟨h1, h2, h3, h4, h5⟩ := hf
        simp [getField, Ne.symm h1, Ne.symm h2, Ne.symm h3, Ne.symm h5]
      · intro f hf
        simp [getField, Ne.symm hf]
  | some rv =>
      refine ⟨("id", Value.vStr assignedId) ::
          [("title", Value.vStr t), ("description", Value.vStr d),
           ("genre", Value.vStr g), ("rating", Value.vNum rv),
           ("createdAt", Value.vDate now)],
        [("title", Value.vStr t), ("description", Value.vStr d),
         ("genre", Value.vStr g), ("rating", Value.vNum rv),
         ("createdAt", Value.vDate now)],
        rfl, rfl, rfl, rfl, rfl, rfl, by simp, ?_, rfl, ?_⟩
      · intro f hf
        simp only [List.mem_cons, List.not_mem_nil, or_false] at hf
        push_neg at hf
        obtain ⟨h1, h2, h3, h4, h5⟩ := hf
        simp [getField, Ne.symm h1, Ne.symm h2, Ne.symm h3, Ne.symm h4,
          Ne.symm h5]
      · intro f hf
        simp [getField, Ne.symm hf]

/-- C4: for an existing id, update applies exactly the present fields among
title, description, genre onto the fetched record and leaves every other
field of the record unchanged. -/
theorem updateMovie_partial_update_frame (s : Store) (i : String)
    (md : UpdateInput) (mb : Obj)
    (hok : (getMovieById s i).1 = Except.ok mb) :
    ∃ m, (updateMovie s i md).1 = Except.ok m ∧
      getField m "title" =
        (md.title.map Value.vStr).elim (getField mb "title") some ∧
      getField m "description" =
        (md.description.map Value.vStr).elim (getField mb "description") some ∧
      getField m "genre" =
        (md.genre.map Value.vStr).elim (getField mb "genre") some ∧
      ∀ f, f ≠ "title" → f ≠ "description" → f ≠ "genre" →
        getField m f = getField mb f := by
  have h3 := getMovieById_eq_of_fst_ok s i mb hok
  refine ⟨applyUpdate mb md, ?_, getField_applyUpdate_title mb md,
    getField_applyUpdate_description mb md, getField_applyUpdate_genre mb md,
    fun f hf1 hf2 hf3 => getField_applyUpdate_frame mb md f hf1 hf2 hf3⟩
  simp [updateMovie, h3, movieTruthy, structuredClone]

theorem updateMovie_partial_update_frame_witness :
    ∃ m, (updateMovie [("a", some [("title", Value.vStr "Old"),
        ("genre", Value.vStr "G")])] "a" ⟨some "X", none, none⟩).1 =
        Except.ok m ∧
      getField m "title" = some (Value.vStr "X") ∧
      getField m "description" =
        getField [("id", Value.vStr "a"), ("title", Value.vStr "Old"),
          ("genre", Value.vStr "G")] "description" ∧
      getField m "genre" =
        getField [("id", Value.vStr "a"), ("title", Value.vStr "Old"),
          ("genre", Value.vStr "G")] "genre" ∧
      ∀ f, f ≠ "title" → f ≠ "description" → f ≠ "genre" →
        getField m f = getField [("id", Value.vStr "a"),
          ("title", Value.vStr "Old"), ("genre", Value.vStr "G")] f :=
  updateMovie_partial_update_frame
    [("a", some [("title", Value.vStr "Old"), ("genre", Value.vStr "G")])]
    "a" ⟨some "X", none, none⟩
    [("id", Value.vStr "a"), ("title", Value.vStr "Old"),
      ("genre", Value.vStr "G")] rfl

/-- C6: delete on an existing id issues the delete so that a subsequent
getById fails with NotFound and returns void; on a non-existent id it fails
with NotFound and issues no write call at all. -/
theorem deleteMovie_existence_semantics (s : Store) (i : String) :
    (∀ e, getDocumentById s i = some e →
      (deleteMovie s i).1 = Except.ok () ∧
      StoreOp.opDelete i ∈ (deleteMovie s i).2.2 ∧
      (getMovieById (deleteMovie s i).2.1 i).1 =
        Except.error (notFoundMsg i)) ∧
    (getDocumentById s i = none →
      (deleteMovie s i).1 = Except.error (notFoundMsg i) ∧
      (deleteMovie s i).2.1 = s ∧
      ∀ op ∈ (deleteMovie s i).2.2, isWrite op = false) := by
  constructor
  · rintro ⟨k, dd⟩ h
    have hok := getMovieById_ok s i k dd h
    have h3 := getMovieById_eq_of_fst_ok s i _ hok
    have hd : deleteMovie s i =
        (Except.ok (), deleteDocument s i,
          [StoreOp.opGet i, StoreOp.opDelete i]) := by
      simp [deleteMovie, h3, movieTruthy]
    refine ⟨by simp [hd], by simp [hd], ?_⟩
    simpa [hd] using
      getMovieById_absent (deleteDocument s i) i
        (getDocumentById_deleteDocument_self s i)
  · intro h
    have hd : deleteMovie s i =
        (Except.error (notFoundMsg i), s, [StoreOp.opGet i]) := by
      simp [deleteMovie, getMovieById, h]
    simp [hd, isWrite]

theorem deleteMovie_existence_semantics_witness :
    ((deleteMovie [("a", some [("title", Value.vStr "T")])] "a").1 =
        Except.ok () ∧
      StoreOp.opDelete "a" ∈
        (deleteMovie [("a", some [("title", Value.vStr "T")])] "a").2.2 ∧
      (getMovieById
        (deleteMovie [("a", some [("title", Value.vStr "T")])] "a").2.1
        "a").1 = Except.error (notFoundMsg "a")) ∧
    ((deleteMovie ([] : Store) "b").1 = Except.error (notFoundMsg "b") ∧
      (deleteMovie ([] : Store) "b").2.1 = [] ∧
      ∀ op ∈ (deleteMovie ([] : Store) "b").2.2, isWrite op = false) :=
  ⟨(deleteMovie_existence_semantics
      [("a", some [("title", Value.vStr "T")])] "a").1
      ("a", some [("title", Value.vStr "T")]) rfl,
   (deleteMovie_existence_semantics [] "b").2 rfl⟩

/-- C7 counterexample: a field present in storage but outside the Movie shape
(director) survives the write-back of update, so such fields are not dropped
as the claim states. -/
theorem updateMovie_extra_fields_not_dropped_cex :
    ∃ u, getDocumentById
        (updateMovie [("k", some [("title", Value.vStr "A"),
          ("director", Value.vStr "X")])] "k"
          ⟨some "B", none, none⟩).2.1 "k" = some ("k", some u) ∧
      getField u "director" = some (Value.vStr "X") :=
  ⟨[("id", Value.vStr "k"), ("title", Value.vStr "B"),
    ("director", Value.vStr "X")], rfl, rfl⟩

/-- C7 amended: update overwrites the entire stored document with the merged
in-memory object; since that object is built by spreading the fetched data
after the id field, fields present in storage but absent from the Movie
shape are preserved on write, not dropped, and the fetched id is
additionally written into the document. -/
theorem updateMovie_full_overwrite_preserves_extra (s : Store) (i k : String)
    (d : Obj) (md : UpdateInput)
    (hdoc : getDocumentById s i = some (k, some d))
    (hnd : (d.map Prod.fst).Nodup) :
    ∃ u, u = applyUpdate (objSpread [("id", Value.vStr k)] d) md ∧
      (updateMovie s i md).1 = Except.ok u ∧
      getDocumentById (updateMovie s i md).2.1 i = some (i, some u) ∧
      ∀ f, f ≠ "title" → f ≠ "description" → f ≠ "genre" → f ≠ "id" →
        getField u f = getField d f := by
  have hok := getMovieById_ok s i k (some d) hdoc
  simp only [Option.getD_some] at hok
  have h3 := getMovieById_eq_of_fst_ok s i _ hok
  have hu : updateMovie s i md =
      (Except.ok (applyUpdate (objSpread [("id", Value.vStr k)] d) md),
       updateDocument s i (applyUpdate (objSpread [("id", Value.vStr k)] d) md),
       [StoreOp.opGet i,
        StoreOp.opUpdate i
          (applyUpdate (objSpread [("id", Value.vStr k)] d) md)]) := by
    simp [updateMovie, h3, movieTruthy, structuredClone]
  refine ⟨applyUpdate (objSpread [("id", Value.vStr k)] d) md, rfl,
    by simp [hu], ?_, ?_⟩
  · simp only [hu]
    exact getDocumentById_updateDocument_self s i _ (k, some d) hdoc
  · intro f hf1 hf2 hf3 hf4
    rw [getField_applyUpdate_frame _ md f hf1 hf2 hf3,
      getField_objSpread _ _ _ hnd]
    have hbase : getField [("id", Value.vStr k)] f = none := by
      simp [getField, Ne.symm hf4]
    rw [hbase]
    cases getField d f <;> simp

theorem updateMovie_full_overwrite_preserves_extra_witness :
    ∃ u, u = applyUpdate
        (objSpread [("id", Value.vStr "k")]
          [("title", Value.vStr "A"), ("director", Value.vStr "X")])
        ⟨some "B", none, none⟩ ∧
      (updateMovie [("k", some [("title", Value.vStr "A"),
        ("director", Value.vStr "X")])] "k" ⟨some "B", none, none⟩).1 =
        Except.ok u ∧
      getDocumentById
        (updateMovie [("k", some [("title", Value.vStr "A"),
          ("director", Value.vStr "X")])] "k"
          ⟨some "B", none, none⟩).2.1 "k" = some ("k", some u) ∧
      ∀ f, f ≠ "title" → f ≠ "description" → f ≠ "genre" → f ≠ "id" →
        getField u f =
          getField [("title", Value.vStr "A"),
            ("director", Value.vStr "X")] f :=
  updateMovie_full_overwrite_preserves_extra
    [("k", some [("title", Value.vStr "A"), ("director", Value.vStr "X")])]
    "k" "k" [("title", Value.vStr "A"), ("director", Value.vStr "X")]
    ⟨some "B", none, none⟩ rfl (by decide)
